/-
  Verification of the fast_resize batch image-resizing engine.

  Shallow embedding of the core logic of the repository:
  dimension/filter policy (src/resizer.cpp), option validation and batch
  dispatching (src/fastresize.cpp), the bounded hand-off queue and the
  three-stage pipeline (src/pipeline.h, src/pipeline.cpp), the buffer
  free-list allocator (src/thread_pool.cpp), and the image-format name
  maps (src/decoder.cpp).

  IEEE single-precision arithmetic of the source is modelled by exact
  rational arithmetic; C++ std::round (round half away from zero) is
  modelled by croundQ.  C++ byte strings are modelled as lists of byte
  values (List Nat).  Concurrent batch execution is modelled by its
  sequentialisation: the counters of BatchResult are accumulated under a
  single lock in the source, so any interleaving produces the same
  counter totals as the sequential fold used here.
-/
import Mathlib

namespace FastResize

/-- C++ std::round: rounds half away from zero, as applied to the exact
rational value of the float expression. -/
def croundQ (x : ℚ) : ℤ :=
  if 0 ≤ x then ⌊x + 1/2⌋ else ⌈x - 1/2⌉

/-- Resize mode enum of ResizeOptions (include/fastresize.h). -/
inductive ResizeMode where
  | SCALE_PERCENT
  | FIT_WIDTH
  | FIT_HEIGHT
  | EXACT_SIZE
deriving DecidableEq, Repr

/-- Filter enum of ResizeOptions (include/fastresize.h). -/
inductive Filter where
  | MITCHELL
  | CATMULL_ROM
  | BOX
  | TRIANGLE
deriving DecidableEq, Repr

/-- stbir_filter values used by resize_image (src/resizer.cpp). -/
inductive StbFilter where
  | STBIR_FILTER_MITCHELL
  | STBIR_FILTER_CATMULLROM
  | STBIR_FILTER_BOX
  | STBIR_FILTER_TRIANGLE
deriving DecidableEq, Repr

/-- ResizeOptions (include/fastresize.h): the fields the core logic reads.
target dimensions and quality are C++ int, scale_percent is a float
modelled as an exact rational. -/
structure ResizeOptions where
  mode : ResizeMode
  target_width : ℤ
  target_height : ℤ
  scale_percent : ℚ
  keep_aspect_ratio : Bool
  quality : ℤ
  filter : Filter
deriving DecidableEq, Repr

/-- Default-constructed ResizeOptions (include/fastresize.h constructor). -/
def defaultOptions : ResizeOptions :=
  { mode := .EXACT_SIZE
    target_width := 0
    target_height := 0
    scale_percent := 1
    keep_aspect_ratio := true
    quality := 85
    filter := .MITCHELL }

/-- calculate_dimensions (src/resizer.cpp, lines 51-97): switch on mode,
then clamp each axis to a minimum of 1.  Float ratios are modelled
exactly in ℚ. -/
def calculate_dimensions (in_w in_h : ℤ) (opts : ResizeOptions) : ℤ × ℤ :=
  let p : ℤ × ℤ :=
    match opts.mode with
    | .SCALE_PERCENT =>
        (croundQ ((in_w : ℚ) * opts.scale_percent),
         croundQ ((in_h : ℚ) * opts.scale_percent))
    | .FIT_WIDTH =>
        let out_w := opts.target_width
        let out_h :=
          if opts.keep_aspect_ratio then
            croundQ ((in_h : ℚ) * ((out_w : ℚ) / (in_w : ℚ)))
          else in_h
        (out_w, out_h)
    | .FIT_HEIGHT =>
        let out_h := opts.target_height
        let out_w :=
          if opts.keep_aspect_ratio then
            croundQ ((in_w : ℚ) * ((out_h : ℚ) / (in_h : ℚ)))
          else in_w
        (out_w, out_h)
    | .EXACT_SIZE =>
        if opts.keep_aspect_ratio then
          let ratio_w : ℚ := (opts.target_width : ℚ) / (in_w : ℚ)
          let ratio_h : ℚ := (opts.target_height : ℚ) / (in_h : ℚ)
          let ratio := min ratio_w ratio_h
          (croundQ ((in_w : ℚ) * ratio), croundQ ((in_h : ℚ) * ratio))
        else
          (opts.target_width, opts.target_height)
  ((if p.1 < 1 then 1 else p.1), (if p.2 < 1 then 1 else p.2))

/-- The dimension formulas exactly as section 4.4 of the spec states them
(with the spec's own clamp-to-1 sentence applied last), for comparison
with calculate_dimensions. -/
def specDims (in_w in_h : ℤ) (opts : ResizeOptions) : ℤ × ℤ :=
  let p : ℤ × ℤ :=
    match opts.mode with
    | .SCALE_PERCENT =>
        (croundQ ((in_w : ℚ) * opts.scale_percent),
         croundQ ((in_h : ℚ) * opts.scale_percent))
    | .FIT_WIDTH =>
        (opts.target_width,
         if opts.keep_aspect_ratio then
           croundQ ((in_h : ℚ) * (opts.target_width : ℚ) / (in_w : ℚ))
         else in_h)
    | .FIT_HEIGHT =>
        (if opts.keep_aspect_ratio then
           croundQ ((in_w : ℚ) * (opts.target_height : ℚ) / (in_h : ℚ))
         else in_w,
         opts.target_height)
    | .EXACT_SIZE =>
        if opts.keep_aspect_ratio then
          let ratio := min ((opts.target_width : ℚ) / (in_w : ℚ))
                           ((opts.target_height : ℚ) / (in_h : ℚ))
          (croundQ ((in_w : ℚ) * ratio), croundQ ((in_h : ℚ) * ratio))
        else
          (opts.target_width, opts.target_height)
  (max p.1 1, max p.2 1)

/-- Mapping of each requested filter to its stb counterpart: the switch in
resize_image (src/resizer.cpp, lines 124-139). -/
def filterToStb : Filter → StbFilter
  | .MITCHELL => .STBIR_FILTER_MITCHELL
  | .CATMULL_ROM => .STBIR_FILTER_CATMULLROM
  | .BOX => .STBIR_FILTER_BOX
  | .TRIANGLE => .STBIR_FILTER_TRIANGLE

/-- max_downscale of resize_image (src/resizer.cpp, lines 115-117):
max of the two per-axis input/output ratios, float arithmetic modelled
in ℚ. -/
def maxDownscale (input_w input_h output_w output_h : ℤ) : ℚ :=
  let rw : ℚ := (input_w : ℚ) / (output_w : ℚ)
  let rh : ℚ := (input_h : ℚ) / (output_h : ℚ)
  if rw > rh then rw else rh

/-- Filter actually used by resize_image (src/resizer.cpp, lines 119-140):
Mitchell at a downscale ratio of at least 3 is silently replaced by
Triangle, every other request maps through the switch unchanged. -/
def resizeFilterUsed (input_w input_h output_w output_h : ℤ)
    (opts : ResizeOptions) : StbFilter :=
  let md := maxDownscale input_w input_h output_w output_h
  if 3 ≤ md ∧ opts.filter = .MITCHELL then .STBIR_FILTER_TRIANGLE
  else filterToStb opts.filter

/-- Result of checking which resize_image parameter/channel cases hold
(src/resizer.cpp, lines 106-110 and 142-196).  The two external
resampler calls (the SIMD fast path and stbir_resize) are collapsed into
the single oracle bit stbirOk, since both are out-of-scope collaborators
of the core. -/
def resize_image_ok (input_w input_h channels output_w output_h : ℤ)
    (stbirOk : Bool) : Bool :=
  if input_w ≤ 0 ∨ input_h ≤ 0 ∨ output_w ≤ 0 ∨ output_h ≤ 0 ∨ channels ≤ 0 then
    false
  else if channels = 1 ∨ channels = 2 ∨ channels = 3 ∨ channels = 4 then
    stbirOk
  else
    false

/-- The mode-specific parameter check of validate_options
(src/fastresize.cpp, lines 74-99): true when the required parameter for
the mode is non-positive. -/
def mode_params_invalid (opts : ResizeOptions) : Bool :=
  match opts.mode with
  | .SCALE_PERCENT => decide (opts.scale_percent ≤ 0)
  | .FIT_WIDTH => decide (opts.target_width ≤ 0)
  | .FIT_HEIGHT => decide (opts.target_height ≤ 0)
  | .EXACT_SIZE => decide (opts.target_width ≤ 0) || decide (opts.target_height ≤ 0)

/-- validate_options (src/fastresize.cpp, lines 73-107). -/
def validate_options (opts : ResizeOptions) : Bool :=
  if mode_params_invalid opts then false
  else if decide (opts.quality < 1) || decide (opts.quality > 100) then false
  else true

/-- ImageFormat enum (src/internal.h). -/
inductive ImageFormat where
  | FORMAT_UNKNOWN
  | FORMAT_JPEG
  | FORMAT_PNG
  | FORMAT_WEBP
  | FORMAT_BMP
deriving DecidableEq, Repr

/-- Byte values of the C++ string literal jpg. -/
def str_jpg : List Nat := [106, 112, 103]

/-- Byte values of the C++ string literal jpeg. -/
def str_jpeg : List Nat := [106, 112, 101, 103]

/-- Byte values of the C++ string literal png. -/
def str_png : List Nat := [112, 110, 103]

/-- Byte values of the C++ string literal webp. -/
def str_webp : List Nat := [119, 101, 98, 112]

/-- Byte values of the C++ string literal bmp. -/
def str_bmp : List Nat := [98, 109, 112]

/-- format_to_string (src/decoder.cpp, lines 202-209); strings are byte
lists. -/
def format_to_string : ImageFormat → List Nat
  | .FORMAT_JPEG => str_jpg
  | .FORMAT_PNG => str_png
  | .FORMAT_WEBP => str_webp
  | .FORMAT_BMP => str_bmp
  | .FORMAT_UNKNOWN => [117, 110, 107, 110, 111, 119, 110]

/-- string_to_format (src/decoder.cpp, lines 211-217). -/
def string_to_format (s : List Nat) : ImageFormat :=
  if s = str_jpg ∨ s = str_jpeg then .FORMAT_JPEG
  else if s = str_png then .FORMAT_PNG
  else if s = str_webp then .FORMAT_WEBP
  else if s = str_bmp then .FORMAT_BMP
  else .FORMAT_UNKNOWN

/-- The ASCII lowercasing loop used on extensions (src/pipeline.cpp lines
206-208, src/fastresize.cpp lines 153-155): bytes between A and Z get 32
added, everything else is untouched. -/
def to_lower_byte (b : Nat) : Nat :=
  if 65 ≤ b ∧ b ≤ 90 then b + 32 else b

/-- ASCII uppercasing of a byte, used to state case-insensitivity: the
lowercase letters a-z map down by 32, everything else is untouched. -/
def to_upper_byte (b : Nat) : Nat :=
  if 97 ≤ b ∧ b ≤ 122 then b - 32 else b

/-- find_last_of the dot character followed by substr(dot_pos + 1): the
byte suffix after the last dot (byte 46), or none when the path has no
dot. -/
def extAfterLastDot : List Nat → Option (List Nat)
  | [] => none
  | b :: rest =>
      match extAfterLastDot rest with
      | some e => some e
      | none => if b = 46 then some rest else none

/-- Output-format inference of the encode stage (src/pipeline.cpp, lines
202-214): lowercase the extension after the last dot, map it through
string_to_format, default to JPEG when the path has no dot or the
extension is unrecognized. -/
def encode_infer_format (path : List Nat) : ImageFormat :=
  let fmt :=
    match extAfterLastDot path with
    | some ext => string_to_format (ext.map to_lower_byte)
    | none => ImageFormat.FORMAT_UNKNOWN
  if fmt = .FORMAT_UNKNOWN then .FORMAT_JPEG else fmt

/-- BatchResult (include/fastresize.h): counters plus error entries.  The
int counters of the source are modelled as Nat (they only ever count up
from zero, at most once per item); an error entry is identified by the
path stored in it, the attached message text is not modelled. -/
structure BatchResult where
  total : Nat
  success : Nat
  failed : Nat
  errors : List (List Nat)
deriving DecidableEq, Repr

/-- BatchOptions (include/fastresize.h). -/
structure BatchOptions where
  num_threads : ℤ
  stop_on_error : Bool
  max_speed : Bool
deriving DecidableEq, Repr

/-- calculate_optimal_threads (src/fastresize.cpp, lines 293-308). -/
def calculate_optimal_threads (batch_size : Nat) (requested_threads : ℤ) : Nat :=
  if 0 < requested_threads then requested_threads.toNat
  else if batch_size < 5 then 1
  else if batch_size < 20 then 2
  else if batch_size < 50 then 4
  else 8

/-- The strategy batch_resize_custom commits to (src/fastresize.cpp,
lines 400-434): early return on an empty batch, the 4/8/4-thread
pipeline when max_speed is set and the batch has at least 20 items, the
flat worker pool otherwise. -/
inductive Strategy where
  | emptyReturn
  | pipeline (decode_threads resize_threads encode_threads : Nat)
  | flat (num_threads : Nat)
deriving DecidableEq, Repr

/-- Strategy selection of batch_resize_custom (src/fastresize.cpp, lines
405-431) as a function of the batch size and the batch options. -/
def chooseStrategy (n : Nat) (opts : BatchOptions) : Strategy :=
  if n = 0 then .emptyReturn
  else if opts.max_speed = true ∧ 20 ≤ n then .pipeline 4 8 4
  else .flat (calculate_optimal_threads n opts.num_threads)

/-- Sequentialised state of the flat worker-pool loop of
batch_resize_custom (src/fastresize.cpp, lines 436-466): the BatchResult
counters accumulated under result_mutex, the should_stop flag, and the
number of tasks that ran their body. -/
structure FlatState where
  success : Nat
  failed : Nat
  errors : List (List Nat)
  stopped : Bool
  tasksRun : Nat
deriving DecidableEq, Repr

/-- Initial flat-loop state. -/
def flatInit : FlatState := ⟨0, 0, [], false, 0⟩

/-- One item of the flat path (src/fastresize.cpp, lines 439-464): a
tripped should_stop flag skips the item entirely (covering both the
enqueue-loop break and the in-task early return); otherwise the item
increments exactly one counter, a failure appends its input path to the
error list and trips should_stop when stop_on_error is set.  The item is
the pair of its input path and the outcome of resize for it. -/
def flatStep (stop_on_error : Bool) (st : FlatState) (item : List Nat × Bool) :
    FlatState :=
  if st.stopped then st
  else if item.2 then
    { st with success := st.success + 1, tasksRun := st.tasksRun + 1 }
  else
    { st with failed := st.failed + 1,
              errors := st.errors ++ [item.1],
              stopped := stop_on_error,
              tasksRun := st.tasksRun + 1 }

/-- The whole flat loop over a batch. -/
def flatRun (stop_on_error : Bool) (items : List (List Nat × Bool)) : FlatState :=
  items.foldl (flatStep stop_on_error) flatInit

/-- BatchResult returned by the flat path of batch_resize_custom: total
is the item count, the counters and errors come from the loop. -/
def batchFlat (stop_on_error : Bool) (items : List (List Nat × Bool)) :
    BatchResult :=
  let st := flatRun stop_on_error items
  ⟨items.length, st.success, st.failed, st.errors⟩

/-- Per-item oracle for one pipeline traversal: the item's options and
destination, and the outcomes of the external codec calls on it
(format sniff, decode with its dimensions, the resampler, the encoder). -/
structure ItemWorld where
  opts : ResizeOptions
  output_path : List Nat
  formatKnown : Bool
  decoded : Option (ℤ × ℤ × ℤ)
  stbirOk : Bool
  encodeOk : Bool

/-- DecodeResult as the later stages read it (src/pipeline.h lines
121-128): the success flag and whether pixels are attached. -/
structure DecodeResultM where
  success : Bool
  hasImage : Bool
deriving DecidableEq, Repr

/-- ResizeResult as the encode stage reads it (src/pipeline.h lines
130-140). -/
structure ResizeResultM where
  success : Bool
  pixels : Bool
  width : ℤ
  height : ℤ
  channels : ℤ
  output_path : List Nat
  quality : ℤ
deriving DecidableEq, Repr

/-- One decode-stage task (src/pipeline.cpp, lines 82-107): unknown
format or a failed decode push a failure-tagged result without pixels,
a successful decode pushes pixels. -/
def decode_stage_item (w : ItemWorld) : DecodeResultM :=
  if w.formatKnown = false then ⟨false, false⟩
  else
    match w.decoded with
    | none => ⟨false, false⟩
    | some _ => ⟨true, true⟩

/-- One resize-stage iteration (src/pipeline.cpp, lines 118-174): a
failed decode passes straight through; otherwise the output dimensions
are computed by calculate_dimensions and the item succeeds exactly when
resize_image does. -/
def resize_stage_item (w : ItemWorld) (d : DecodeResultM) : ResizeResultM :=
  if d.success = false then
    ⟨false, false, 0, 0, 0, w.output_path, w.opts.quality⟩
  else
    match w.decoded with
    | none => ⟨false, false, 0, 0, 0, w.output_path, w.opts.quality⟩
    | some (iw, ih, ch) =>
        let od := calculate_dimensions iw ih w.opts
        if resize_image_ok iw ih ch od.1 od.2 w.stbirOk then
          ⟨true, true, od.1, od.2, ch, w.output_path, w.opts.quality⟩
        else
          ⟨false, false, 0, 0, 0, w.output_path, w.opts.quality⟩

/-- Counter and error-list contribution of one encode-stage iteration
(src/pipeline.cpp, lines 192-252): a forwarded failure or invalid pixel
data counts as failed, otherwise the encoder outcome decides; every
failure path of the source appends exactly one error entry (the
forwarded error messages are never empty). -/
def encode_stage_item (w : ItemWorld) (r : ResizeResultM) :
    Nat × Nat × List (List Nat) :=
  if r.success = false then (0, 1, [r.output_path])
  else if r.pixels = false ∨ r.width ≤ 0 ∨ r.height ≤ 0 ∨ r.channels ≤ 0 then
    (0, 1, [r.output_path])
  else if w.encodeOk then (1, 0, []) else (0, 1, [r.output_path])

/-- Full traversal of one item through the three pipeline stages. -/
def pipeline_item (w : ItemWorld) : Nat × Nat × List (List Nat) :=
  encode_stage_item w (resize_stage_item w (decode_stage_item w))

/-- BatchResult of PipelineProcessor::process_batch (src/pipeline.cpp,
lines 261-281): total is the item count, the counters and errors are the
accumulated per-item contributions.  Every submitted item is pushed to
the decode queue exactly once, popped and pushed on by the resize stage
exactly once, and consumed by the encode stage exactly once, so the
batch total is the fold of the per-item deltas: this definition is the
accumulation of one item's contribution into the shared counters and
error list (src/pipeline.cpp, lines 192-252 and 274-279). -/
def pipelineAccum (r : BatchResult) (w : ItemWorld) : BatchResult :=
  let d := pipeline_item w
  { r with success := r.success + d.1,
           failed := r.failed + d.2.1,
           errors := r.errors ++ d.2.2 }

/-- BatchResult of PipelineProcessor::process_batch as the fold of the
per-item contributions over the whole batch. -/
def pipelineBatch (ws : List ItemWorld) : BatchResult :=
  ws.foldl pipelineAccum ⟨ws.length, 0, 0, []⟩

/-- BoundedQueue state (src/pipeline.h, lines 53-112): capacity, queued
items in FIFO order, and the monotonic done flag. -/
structure QState (T : Type) where
  capacity : Nat
  items : List T
  done : Bool

/-- BoundedQueue::push (src/pipeline.h, lines 61-74): none models the
caller blocking on cv_not_full_; once the wait predicate holds, a set
done flag fails the push without inserting, otherwise the item is
appended at the back. -/
def bq_push {T : Type} (s : QState T) (x : T) : Option (Bool × QState T) :=
  if s.done then some (false, s)
  else if s.items.length < s.capacity then
    some (true, { s with items := s.items ++ [x] })
  else none

/-- BoundedQueue::pop (src/pipeline.h, lines 76-90): none models the
caller blocking on cv_not_empty_; an empty queue with the done flag set
reports no data, a non-empty queue hands out the front item even after
done. -/
def bq_pop {T : Type} (s : QState T) : Option (Option T × QState T) :=
  match s.items with
  | x :: rest => some (some x, { s with items := rest })
  | [] => if s.done then some (none, s) else none

/-- BoundedQueue::set_done (src/pipeline.h, lines 92-98). -/
def bq_set_done {T : Type} (s : QState T) : QState T :=
  { s with done := true }

/-- BufferPool free list (src/thread_pool.cpp, lines 135-188), modelled
as the list of entry capacities in insertion order; the raw data
pointers carry no further information the pool logic reads. -/
abbrev Pool := List Nat

/-- What acquire hands back: a reused pooled entry of some capacity, or a
freshly allocated buffer whose capacity is exactly the request. -/
inductive AcqSrc where
  | pooled (cap : Nat)
  | fresh (cap : Nat)
deriving DecidableEq, Repr

/-- Capacity of an acquire result. -/
def AcqSrc.cap : AcqSrc → Nat
  | .pooled c => c
  | .fresh c => c

/-- BufferPool::acquire (src/thread_pool.cpp, lines 161-173): scan the
free list front to back, remove and return the first entry whose
capacity suffices, else allocate fresh at exactly the requested size. -/
def acquire : Pool → Nat → AcqSrc × Pool
  | [], n => (.fresh n, [])
  | c :: rest, n =>
      if n ≤ c then (.pooled c, rest)
      else
        let r := acquire rest n
        (r.1, c :: r.2)

/-- BufferPool::release (src/thread_pool.cpp, lines 175-188): store the
buffer when the free list holds fewer than 32 entries, free it
immediately otherwise.  The Bool reports whether it was stored. -/
def release (pool : Pool) (capacity : Nat) : Pool × Bool :=
  if pool.length < 32 then (pool ++ [capacity], true) else (pool, false)

/-- Smallest pooled capacity that can satisfy a request, used to state
what a best-fit acquire would return. -/
def bestFitCap (pool : Pool) (n : Nat) : Option Nat :=
  (pool.filter (fun c => n ≤ c)).min?

/-- I/O and compute actions of one single-image or pipeline operation, in
program order. -/
inductive Eff where
  | readInputSniff
  | readOutputSniff
  | readDims
  | decodeInput
  | resizeCompute
  | encodeWrite
deriving DecidableEq, Repr

/-- World oracle for one call of the single-image resize entry point:
outcomes of the format sniffs, the header read, the decode, the
resampler and the encoder on the two paths involved. -/
structure SingleWorld where
  inputFormat : ImageFormat
  outputSniff : ImageFormat
  output_path : List Nat
  dims : Option (ℤ × ℤ × ℤ)
  decodeOk : Bool
  stbirOk : Bool
  encodeOk : Bool

/-- Output-format fallback of resize (src/fastresize.cpp, lines 148-162):
magic-byte sniff of the output path first, then the lowercased
extension, then the input format. -/
def inferOutputFormatResize (w : SingleWorld) : ImageFormat :=
  if w.outputSniff ≠ .FORMAT_UNKNOWN then w.outputSniff
  else
    let fromExt :=
      match extAfterLastDot w.output_path with
      | some ext => string_to_format (ext.map to_lower_byte)
      | none => ImageFormat.FORMAT_UNKNOWN
    if fromExt = .FORMAT_UNKNOWN then w.inputFormat else fromExt

/-- The single-image entry point resize (src/fastresize.cpp, lines
133-215): result flag plus the trace of file reads, decodes, resizes
and writes it performed, in program order.  Option validation is the
first statement of the function, before any file is touched. -/
def resizeM (opts : ResizeOptions) (w : SingleWorld) : Bool × List Eff :=
  if validate_options opts = false then (false, [])
  else if w.inputFormat = .FORMAT_UNKNOWN then (false, [.readInputSniff])
  else
    let _fmt := inferOutputFormatResize w
    match w.dims with
    | none => (false, [.readInputSniff, .readOutputSniff, .readDims])
    | some (iw, ih, ch) =>
        let od := calculate_dimensions iw ih opts
        if w.decodeOk = false then
          (false, [.readInputSniff, .readOutputSniff, .readDims, .decodeInput])
        else if resize_image_ok iw ih ch od.1 od.2 w.stbirOk then
          (w.encodeOk,
           [.readInputSniff, .readOutputSniff, .readDims, .decodeInput,
            .resizeCompute, .encodeWrite])
        else
          (false, [.readInputSniff, .readOutputSniff, .readDims, .decodeInput,
                   .resizeCompute])

/-- Effect trace of one item that enters the pipeline strategy
(src/pipeline.cpp): detect_format and decode_image in the decode stage,
resize_image in the resize stage, encode_image in the encode stage.  No
stage validates the item's ResizeOptions. -/
def pipeline_item_effects (w : ItemWorld) : List Eff :=
  if w.formatKnown = false then [.readInputSniff]
  else
    match w.decoded with
    | none => [.readInputSniff, .decodeInput]
    | some (iw, ih, ch) =>
        let od := calculate_dimensions iw ih w.opts
        if resize_image_ok iw ih ch od.1 od.2 w.stbirOk then
          [.readInputSniff, .decodeInput, .resizeCompute, .encodeWrite]
        else
          [.readInputSniff, .decodeInput, .resizeCompute]

/-- An options record that fails validation: EXACT_SIZE 100 x 100 with
quality 0 (outside 1-100). -/
def invalidQualityOpts : ResizeOptions :=
  { defaultOptions with target_width := 100, target_height := 100, quality := 0 }

/-- A fully healthy pipeline world for an item carrying the invalid
options: the sniff, decode (400 x 300 x 3), resampler and encoder all
succeed. -/
def invalidQualityWorld : ItemWorld :=
  { opts := invalidQualityOpts
    output_path := [111, 46, 106, 112, 103]
    formatKnown := true
    decoded := some (400, 300, 3)
    stbirOk := true
    encodeOk := true }

/-! ### Helper lemmas -/

theorem if_lt_one_eq_max (x : ℤ) : (if x < 1 then 1 else x) = max x 1 := by
  rcases le_or_lt 1 x with h | h
  · rw [if_neg (by omega), max_eq_left h]
  · rw [if_pos h, max_eq_right (by omega)]

theorem encode_stage_item_delta (w : ItemWorld) (r : ResizeResultM) :
    (encode_stage_item w r).1 + (encode_stage_item w r).2.1 = 1 := by
  unfold encode_stage_item
  split_ifs <;> rfl

theorem pipeline_item_delta (w : ItemWorld) :
    (pipeline_item w).1 + (pipeline_item w).2.1 = 1 :=
  encode_stage_item_delta w _

theorem pipeline_foldl_counters (ws : List ItemWorld) (r : BatchResult) :
    (ws.foldl pipelineAccum r).success + (ws.foldl pipelineAccum r).failed
      = r.success + r.failed + ws.length ∧
    (ws.foldl pipelineAccum r).total = r.total := by
  induction ws generalizing r with
  | nil => simp
  | cons w rest ih =>
      have hd := pipeline_item_delta w
      have h2 := ih (pipelineAccum r w)
      have hs : (pipelineAccum r w).success = r.success + (pipeline_item w).1 := rfl
      have hf : (pipelineAccum r w).failed = r.failed + (pipeline_item w).2.1 := rfl
      have ht : (pipelineAccum r w).total = r.total := rfl
      simp only [List.foldl_cons, List.length_cons]
      refine ⟨?_, ?_⟩
      · rw [h2.1, hs, hf]; omega
      · rw [h2.2, ht]

theorem flat_foldl_stopped (stop_on_error : Bool)
    (items : List (List Nat × Bool)) (st : FlatState) (h : st.stopped = true) :
    items.foldl (flatStep stop_on_error) st = st := by
  induction items with
  | nil => rfl
  | cons x rest ih => simp only [List.foldl_cons, flatStep, h, if_true]; exact ih

theorem flat_foldl_counts (stop_on_error : Bool)
    (items : List (List Nat × Bool)) (st : FlatState) :
    (items.foldl (flatStep stop_on_error) st).success
      + (items.foldl (flatStep stop_on_error) st).failed
      + st.tasksRun
    = st.success + st.failed
      + (items.foldl (flatStep stop_on_error) st).tasksRun := by
  induction items generalizing st with
  | nil => simp
  | cons x rest ih =>
      simp only [List.foldl_cons]
      have h2 := ih (flatStep stop_on_error st x)
      have : (flatStep stop_on_error st x).success
               + (flatStep stop_on_error st x).failed
               + st.tasksRun
           = st.success + st.failed + (flatStep stop_on_error st x).tasksRun := by
        unfold flatStep
        split_ifs <;> simp <;> omega
      omega

theorem flat_foldl_tasks_le (stop_on_error : Bool)
    (items : List (List Nat × Bool)) (st : FlatState) :
    (items.foldl (flatStep stop_on_error) st).tasksRun
      ≤ st.tasksRun + items.length := by
  induction items generalizing st with
  | nil => simp
  | cons x rest ih =>
      simp only [List.foldl_cons, List.length_cons]
      have h2 := ih (flatStep stop_on_error st x)
      have : (flatStep stop_on_error st x).tasksRun ≤ st.tasksRun + 1 := by
        unfold flatStep; split_ifs <;> simp
      omega

theorem flat_foldl_not_stopped (stop_on_error : Bool)
    (items : List (List Nat × Bool)) (st : FlatState)
    (h : (items.foldl (flatStep stop_on_error) st).stopped = false) :
    (items.foldl (flatStep stop_on_error) st).tasksRun
      = st.tasksRun + items.length := by
  induction items generalizing st with
  | nil => simp
  | cons x rest ih =>
      simp only [List.foldl_cons, List.length_cons] at *
      have hst : st.stopped = false := by
        by_contra hc
        have hs : st.stopped = true := by
          cases hb : st.stopped
          · exact absurd hb hc
          · rfl
        rw [flat_foldl_stopped stop_on_error rest (flatStep stop_on_error st x)
              (by simp [flatStep, hs])] at h
        simp [flatStep, hs] at h
      have hs1 : (flatStep stop_on_error st x).tasksRun = st.tasksRun + 1 := by
        unfold flatStep
        rw [if_neg (by simp [hst])]
        split_ifs <;> rfl
      rw [ih (flatStep stop_on_error st x) h, hs1]
      omega

theorem flat_foldl_never_stops (items : List (List Nat × Bool)) (st : FlatState)
    (h : st.stopped = false) :
    (items.foldl (flatStep false) st).stopped = false := by
  induction items generalizing st with
  | nil => exact h
  | cons x rest ih =>
      simp only [List.foldl_cons]
      refine ih (flatStep false st x) ?_
      unfold flatStep
      rw [if_neg (by simp [h])]
      split_ifs <;> simp [h]

theorem acquire_pool_length_le (pool : Pool) (n : Nat) :
    (acquire pool n).2.length ≤ pool.length := by
  induction pool with
  | nil => simp [acquire]
  | cons c rest ih =>
      by_cases h : n ≤ c
      · simp [acquire, h]
      · simp only [acquire, if_neg h, List.length_cons]
        omega

theorem acquire_cap_ge (pool : Pool) (n : Nat) : n ≤ (acquire pool n).1.cap := by
  induction pool with
  | nil => simp [acquire, AcqSrc.cap]
  | cons c rest ih =>
      by_cases h : n ≤ c
      · simp [acquire, h, AcqSrc.cap]
      · simpa [acquire, h] using ih

theorem acquire_of_find (pool : Pool) (n c : Nat)
    (h : pool.find? (fun x => decide (n ≤ x)) = some c) :
    acquire pool n = (.pooled c, pool.eraseP (fun x => decide (n ≤ x))) := by
  induction pool with
  | nil => simp [List.find?] at h
  | cons a rest ih =>
      by_cases ha : n ≤ a
      · have hp : (fun x => decide (n ≤ x)) a = true := by simpa using ha
        rw [List.find?_cons_of_pos rest hp] at h
        injection h with h
        subst h
        simp only [List.eraseP_cons, hp, cond_true]
        simp [acquire, ha]
      · have hpf : (fun x => decide (n ≤ x)) a = false := by simpa using ha
        rw [List.find?_cons] at h
        simp only [hpf] at h
        simp only [List.eraseP_cons, hpf, cond_false]
        simp [acquire, ha, ih h]

theorem acquire_of_find_none (pool : Pool) (n : Nat)
    (h : pool.find? (fun x => decide (n ≤ x)) = none) :
    acquire pool n = (.fresh n, pool) := by
  induction pool with
  | nil => simp [acquire]
  | cons a rest ih =>
      rw [List.find?_cons] at h
      by_cases ha : n ≤ a
      · simp [ha] at h
      · have h2 : rest.find? (fun x => decide (n ≤ x)) = none := by
          rcases hf : rest.find? (fun x => decide (n ≤ x)) with _ | c
          · rfl
          · rw [hf] at h; simp [ha] at h
        simp [acquire, ha, ih h2]

theorem to_lower_upper_byte (b : Nat) :
    to_lower_byte (to_upper_byte b) = to_lower_byte b := by
  unfold to_lower_byte to_upper_byte
  split_ifs <;> omega

theorem map_lower_upper (l : List Nat) :
    List.map (to_lower_byte ∘ to_upper_byte) l = List.map to_lower_byte l := by
  induction l with
  | nil => rfl
  | cons b rest ih => simp [Function.comp, to_lower_upper_byte, ih]

theorem extAfterLastDot_map_upper (l : List Nat) :
    extAfterLastDot (l.map to_upper_byte)
      = (extAfterLastDot l).map (List.map to_upper_byte) := by
  induction l with
  | nil => rfl
  | cons b rest ih =>
      simp only [List.map_cons, extAfterLastDot, ih]
      cases h : extAfterLastDot rest with
      | some e => simp
      | none =>
          by_cases hb : b = 46
          · subst hb; simp [to_upper_byte]
          · have hub : to_upper_byte b ≠ 46 := by
              unfold to_upper_byte; split_ifs <;> omega
            simp [hb, hub]

theorem encode_infer_format_map_upper (path : List Nat) :
    encode_infer_format (path.map to_upper_byte) = encode_infer_format path := by
  unfold encode_infer_format
  rw [extAfterLastDot_map_upper]
  cases h : extAfterLastDot path with
  | none => rfl
  | some e => simp [map_lower_upper]

/-! ### Claim theorems -/

/-- C2, counterexample: the claim says calculate_dimensions returns
round(inW * scale) per axis for ScalePercent, with no qualification.  At
inW = inH = 1 and the validated scale 1/10 the rounded value is 0, but
the function returns 1 (the final clamp), so the claim as stated is
false. -/
theorem C2_counterexample :
    validate_options
        { defaultOptions with mode := .SCALE_PERCENT, scale_percent := 1/10 } = true ∧
    croundQ ((1 : ℚ) * (1/10 : ℚ)) = 0 ∧
    (calculate_dimensions 1 1
        { defaultOptions with mode := .SCALE_PERCENT, scale_percent := 1/10 }).1 = 1 ∧
    (calculate_dimensions 1 1
        { defaultOptions with mode := .SCALE_PERCENT, scale_percent := 1/10 }).1 ≠
      croundQ ((1 : ℚ) * (1/10 : ℚ)) := by
  refine ⟨?_, ?_, ?_, ?_⟩ <;>
    norm_num [calculate_dimensions, croundQ, defaultOptions, validate_options,
      mode_params_invalid]

/-- C2, amended: calculate_dimensions computes exactly the per-mode
formulas of the claim with each output axis additionally clamped below
at 1, stated as equality with specDims, the direct transcription of the
spec text. -/
theorem C2_dimension_formulas (in_w in_h : ℤ) (opts : ResizeOptions) :
    calculate_dimensions in_w in_h opts = specDims in_w in_h opts := by
  obtain ⟨m, tw, th, sp, ka, q, f⟩ := opts
  cases m <;> cases ka <;>
    simp only [calculate_dimensions, specDims, if_lt_one_eq_max, mul_div_assoc]

/-- C3: calculate_dimensions never returns a value below 1 on either
output axis, for every mode, every option record and all input
dimensions. -/
theorem C3_output_dims_at_least_one (in_w in_h : ℤ) (opts : ResizeOptions) :
    1 ≤ (calculate_dimensions in_w in_h opts).1 ∧
    1 ≤ (calculate_dimensions in_w in_h opts).2 := by
  constructor <;>
    · simp only [calculate_dimensions]
      split <;> omega

/-- C4: resize_image substitutes Triangle for a requested Mitchell
filter exactly when the maximum downscale ratio is at least 3, and in
every other combination the requested filter maps to its own stb
counterpart unchanged. -/
theorem C4_mitchell_substitution (input_w input_h output_w output_h : ℤ)
    (opts : ResizeOptions) :
    (resizeFilterUsed input_w input_h output_w output_h opts =
      if opts.filter = .MITCHELL ∧
         3 ≤ maxDownscale input_w input_h output_w output_h
      then .STBIR_FILTER_TRIANGLE else filterToStb opts.filter) ∧
    filterToStb .MITCHELL = .STBIR_FILTER_MITCHELL ∧
    filterToStb .CATMULL_ROM = .STBIR_FILTER_CATMULLROM ∧
    filterToStb .BOX = .STBIR_FILTER_BOX ∧
    filterToStb .TRIANGLE = .STBIR_FILTER_TRIANGLE := by
  refine ⟨?_, rfl, rfl, rfl, rfl⟩
  by_cases h1 : opts.filter = Filter.MITCHELL <;>
    by_cases h2 : 3 ≤ maxDownscale input_w input_h output_w output_h <;>
    simp [resizeFilterUsed, h1, h2]

/-- C5: once the done flag of a BoundedQueue is set, push fails without
inserting and pop on an empty queue reports no data instead of
blocking; pop on a non-empty queue still hands out the front item; the
done flag is idempotent under set_done and never reset by push or
pop. -/
theorem C5_bounded_queue_done (T : Type) (s : QState T) (x : T) :
    (s.done = true → bq_push s x = some (false, s)) ∧
    (s.done = true → s.items = [] → bq_pop s = some (none, s)) ∧
    (∀ y rest, s.items = y :: rest →
      bq_pop s = some (some y, { s with items := rest })) ∧
    bq_set_done (bq_set_done s) = bq_set_done s ∧
    (bq_set_done s).done = true ∧
    (∀ b s2, bq_push s x = some (b, s2) → s2.done = s.done) ∧
    (∀ o s2, bq_pop s = some (o, s2) → s2.done = s.done) := by
  refine ⟨?_, ?_, ?_, rfl, rfl, ?_, ?_⟩
  · intro h; simp [bq_push, h]
  · intro h h2; simp [bq_pop, h2, h]
  · intro y rest h; simp [bq_pop, h]
  · intro b s2 h
    unfold bq_push at h
    split_ifs at h
    · simp only [Option.some.injEq, Prod.mk.injEq] at h
      obtain ⟨-, rfl⟩ := h
      rfl
    · simp only [Option.some.injEq, Prod.mk.injEq] at h
      obtain ⟨-, rfl⟩ := h
      rfl
  · intro o s2 h
    unfold bq_pop at h
    rcases hi : s.items with _ | ⟨y, rest⟩ <;> rw [hi] at h
    · split_ifs at h
      simp only [Option.some.injEq, Prod.mk.injEq] at h
      obtain ⟨-, rfl⟩ := h
      rfl
    · simp only [Option.some.injEq, Prod.mk.injEq] at h
      obtain ⟨-, rfl⟩ := h
      rfl

/-- Witness for C5 at concrete queue states. -/
theorem C5_bounded_queue_done_witness :
    bq_push (⟨2, [], true⟩ : QState Nat) 7 = some (false, ⟨2, [], true⟩) ∧
    bq_pop (⟨2, [], true⟩ : QState Nat) = some (none, ⟨2, [], true⟩) ∧
    bq_pop (⟨2, [5], true⟩ : QState Nat) = some (some 5, ⟨2, [], true⟩) :=
  ⟨(C5_bounded_queue_done Nat ⟨2, [], true⟩ 7).1 rfl,
   (C5_bounded_queue_done Nat ⟨2, [], true⟩ 7).2.1 rfl rfl,
   (C5_bounded_queue_done Nat ⟨2, [5], true⟩ 7).2.2.1 5 [] rfl⟩

/-- C1: every pipeline batch counts each submitted item exactly once, so
success + failed = total = N; the flat path has total = N with
success + failed at most total, and equal to total whenever
stop_on_error is off and, more generally, whenever the stop flag never
tripped; an empty batch yields the all-zero result with an empty error
list. -/
theorem C1_batch_result_counters (ws : List ItemWorld)
    (items : List (List Nat × Bool)) (stop_on_error : Bool) :
    ((pipelineBatch ws).total = ws.length ∧
     (pipelineBatch ws).success + (pipelineBatch ws).failed
       = (pipelineBatch ws).total) ∧
    ((batchFlat stop_on_error items).total = items.length ∧
     (batchFlat stop_on_error items).success
       + (batchFlat stop_on_error items).failed
       ≤ (batchFlat stop_on_error items).total ∧
     (stop_on_error = false →
       (batchFlat stop_on_error items).success
         + (batchFlat stop_on_error items).failed
         = (batchFlat stop_on_error items).total) ∧
     ((flatRun stop_on_error items).stopped = false →
       (batchFlat stop_on_error items).success
         + (batchFlat stop_on_error items).failed
         = (batchFlat stop_on_error items).total)) ∧
    (batchFlat stop_on_error [] = ⟨0, 0, 0, []⟩ ∧
     pipelineBatch [] = ⟨0, 0, 0, []⟩) := by
  have hp := pipeline_foldl_counters ws ⟨ws.length, 0, 0, []⟩
  have h1 := flat_foldl_counts stop_on_error items flatInit
  have h2 := flat_foldl_tasks_le stop_on_error items flatInit
  have hz : flatInit.success = 0 ∧ flatInit.failed = 0 ∧ flatInit.tasksRun = 0 :=
    ⟨rfl, rfl, rfl⟩
  refine ⟨⟨?_, ?_⟩, ⟨rfl, ?_, ?_, ?_⟩, rfl, rfl⟩
  · exact hp.2
  · obtain ⟨hpa, hpb⟩ := hp
    unfold pipelineBatch
    dsimp only at hpa hpb ⊢
    omega
  · unfold batchFlat flatRun
    dsimp only
    omega
  · intro hs
    subst hs
    have h3 := flat_foldl_never_stops items flatInit rfl
    have h4 := flat_foldl_not_stopped false items flatInit h3
    unfold batchFlat flatRun
    dsimp only
    omega
  · intro hs
    unfold flatRun at hs
    have h4 := flat_foldl_not_stopped stop_on_error items flatInit hs
    unfold batchFlat flatRun
    dsimp only
    omega

/-- Witness for C1 with stop_on_error off on a two-item flat batch. -/
theorem C1_batch_result_counters_witness :
    (batchFlat false [([1], true), ([2], false)]).success
      + (batchFlat false [([1], true), ([2], false)]).failed
      = (batchFlat false [([1], true), ([2], false)]).total :=
  (C1_batch_result_counters [] [([1], true), ([2], false)] false).2.1.2.2.1 rfl

/-- C6: batch_resize_custom delegates to the 4/8/4 pipeline exactly when
max_speed is set and the batch has at least 20 items; the flat path uses
the caller's positive thread count, else the batch-size heuristic
(under 5 items 1 thread, under 20 items 2, under 50 items 4, else 8);
and with the stop flag never tripped the flat loop runs one task per
item. -/
theorem C6_dispatch_strategy (n : Nat) (opts : BatchOptions)
    (items : List (List Nat × Bool)) :
    (chooseStrategy n opts = .pipeline 4 8 4 ↔
      opts.max_speed = true ∧ 20 ≤ n) ∧
    (∀ t, chooseStrategy n opts = .flat t →
      t = calculate_optimal_threads n opts.num_threads) ∧
    (0 < opts.num_threads →
      calculate_optimal_threads n opts.num_threads = opts.num_threads.toNat) ∧
    (opts.num_threads ≤ 0 →
      calculate_optimal_threads n opts.num_threads =
        if n < 5 then 1 else if n < 20 then 2 else if n < 50 then 4 else 8) ∧
    (flatRun false items).tasksRun = items.length := by
  refine ⟨?_, ?_, ?_, ?_, ?_⟩
  · unfold chooseStrategy
    by_cases hn : n = 0
    · subst hn; simp
    · by_cases hc : opts.max_speed = true ∧ 20 ≤ n
      · simp [hn, hc]
      · simp [hn, hc]
  · intro t ht
    unfold chooseStrategy at ht
    split_ifs at ht
    injection ht with h
    exact h.symm
  · intro h; simp [calculate_optimal_threads, h]
  · intro h; rw [calculate_optimal_threads, if_neg (by omega)]
  · have h3 := flat_foldl_never_stops items flatInit rfl
    have h4 := flat_foldl_not_stopped false items flatInit h3
    unfold flatRun
    simpa [flatInit] using h4

/-- Witness for C6 at concrete batch sizes and options. -/
theorem C6_dispatch_strategy_witness :
    chooseStrategy 25 ⟨3, false, true⟩ = .pipeline 4 8 4 ∧
    calculate_optimal_threads 25 3 = 3 ∧
    calculate_optimal_threads 25 0 = 4 ∧
    (flatRun false [([1], true)]).tasksRun = 1 :=
  ⟨(C6_dispatch_strategy 25 ⟨3, false, true⟩ []).1.mpr ⟨rfl, by omega⟩,
   by simpa using (C6_dispatch_strategy 25 ⟨3, false, true⟩ []).2.2.1 (by decide),
   by simpa using (C6_dispatch_strategy 25 ⟨0, false, true⟩ []).2.2.2.1 (by decide),
   by simpa using (C6_dispatch_strategy 1 ⟨0, false, true⟩ [([1], true)]).2.2.2.2⟩

/-- C7, counterexample: an item whose ResizeSpec fails validation
(quality 0) is processed by the pipeline strategy without rejection: its
input file is read and decoded, it is resized and encoded, and it is
counted as a success — the pipeline performs no option validation before
I/O, contradicting the claim for every operation. -/
theorem C7_counterexample :
    validate_options invalidQualityOpts = false ∧
    Eff.decodeInput ∈ pipeline_item_effects invalidQualityWorld ∧
    Eff.encodeWrite ∈ pipeline_item_effects invalidQualityWorld ∧
    (pipeline_item invalidQualityWorld).1 = 1 := by
  refine ⟨by decide, ?_, ?_, ?_⟩ <;>
    norm_num [pipeline_item_effects, pipeline_item, invalidQualityWorld,
      invalidQualityOpts, defaultOptions, calculate_dimensions, croundQ,
      resize_image_ok, decode_stage_item, resize_stage_item, encode_stage_item]

/-- C7, amended: in the single-image resize entry point (used by both
flat batch paths), an invalid ResizeSpec — required target dimension or
scale non-positive for its mode, or quality outside 1-100 — is rejected
before any file is read, decoded, resized, or written; the pipeline
strategy performs no such validation. -/
theorem C7_validation_before_io (opts : ResizeOptions) (w : SingleWorld) :
    (validate_options opts = false → resizeM opts w = (false, [])) ∧
    (validate_options opts = false ↔
      (opts.mode = .SCALE_PERCENT ∧ opts.scale_percent ≤ 0) ∨
      (opts.mode = .FIT_WIDTH ∧ opts.target_width ≤ 0) ∨
      (opts.mode = .FIT_HEIGHT ∧ opts.target_height ≤ 0) ∨
      (opts.mode = .EXACT_SIZE ∧
        (opts.target_width ≤ 0 ∨ opts.target_height ≤ 0)) ∨
      opts.quality < 1 ∨ 100 < opts.quality) := by
  constructor
  · intro h; simp [resizeM, h]
  · obtain ⟨m, tw, th, sp, ka, q, f⟩ := opts
    cases m <;>
      · unfold validate_options mode_params_invalid
        split_ifs <;> simp_all

/-- Witness for C7 at the invalid-quality options and a healthy world. -/
theorem C7_validation_before_io_witness :
    resizeM invalidQualityOpts
      { inputFormat := .FORMAT_JPEG, outputSniff := .FORMAT_UNKNOWN,
        output_path := [111, 46, 106, 112, 103], dims := some (400, 300, 3),
        decodeOk := true, stbirOk := true, encodeOk := true } = (false, []) :=
  (C7_validation_before_io invalidQualityOpts _).1 (by decide)

/-- C8, counterexample: with free-list capacities [10, 5] and a request
of 3, the best-fit entry has capacity 5, but acquire removes and returns
the entry of capacity 10 — the first sufficient one in insertion order,
not the best fit. -/
theorem C8_counterexample :
    bestFitCap [10, 5] 3 = some 5 ∧
    acquire [10, 5] 3 = (.pooled 10, [5]) ∧
    (acquire [10, 5] 3).1 ≠ .pooled 5 := by decide

/-- C8, amended: acquire scans the free list in insertion order and
removes and returns the first entry whose capacity suffices (first fit);
with no sufficient entry it allocates fresh at exactly the requested
size; in every case the returned capacity is at least the request. -/
theorem C8_acquire_first_fit (pool : Pool) (n : Nat) :
    n ≤ (acquire pool n).1.cap ∧
    (∀ c, pool.find? (fun x => decide (n ≤ x)) = some c →
      acquire pool n = (.pooled c, pool.eraseP (fun x => decide (n ≤ x)))) ∧
    (pool.find? (fun x => decide (n ≤ x)) = none →
      acquire pool n = (.fresh n, pool)) :=
  ⟨acquire_cap_ge pool n, fun c h => acquire_of_find pool n c h,
   fun h => acquire_of_find_none pool n h⟩

/-- Witness for C8 on concrete free lists. -/
theorem C8_acquire_first_fit_witness :
    acquire [10, 5] 3 =
      (.pooled 10, List.eraseP (fun x => decide (3 ≤ x)) [10, 5]) ∧
    acquire [2] 3 = (.fresh 3, [2]) :=
  ⟨(C8_acquire_first_fit [10, 5] 3).2.1 10 (by decide),
   (C8_acquire_first_fit [2] 3).2.2 (by decide)⟩

/-- C9: release stores the buffer exactly when the free list holds fewer
than 32 entries and frees it otherwise, and both release and acquire
preserve the invariant that the free list never exceeds 32 entries. -/
theorem C9_release_free_list_bound (pool : Pool) (capacity n : Nat) :
    ((release pool capacity).2 = true ↔ pool.length < 32) ∧
    (pool.length < 32 → (release pool capacity).1 = pool ++ [capacity]) ∧
    (¬ pool.length < 32 → (release pool capacity).1 = pool) ∧
    (pool.length ≤ 32 → (release pool capacity).1.length ≤ 32) ∧
    (acquire pool n).2.length ≤ pool.length := by
  refine ⟨?_, ?_, ?_, ?_, acquire_pool_length_le pool n⟩
  · unfold release; split_ifs with h <;> simp [h]
  · intro h; simp [release, h]
  · intro h; simp [release, h]
  · intro h
    unfold release
    split_ifs with h2 <;> simp <;> omega

/-- Witness for C9 at an empty and a full free list. -/
theorem C9_release_free_list_bound_witness :
    (release (List.replicate 32 7) 4).1 = List.replicate 32 7 ∧
    (release [] 4).1 = [4] ∧
    (release [] 4).1.length ≤ 32 :=
  ⟨(C9_release_free_list_bound (List.replicate 32 7) 4 0).2.2.1 (by decide),
   (C9_release_free_list_bound [] 4 0).2.1 (by decide),
   (C9_release_free_list_bound [] 4 0).2.2.2.1 (by decide)⟩

/-- C10: the four known formats round-trip through format_to_string and
string_to_format; the encode stage's extension inference is
case-insensitive (uppercasing the path does not change the inferred
format) and defaults to JPEG when the path has no dot or the extension
is unrecognized. -/
theorem C10_format_names (path : List Nat) :
    (string_to_format (format_to_string .FORMAT_JPEG) = .FORMAT_JPEG ∧
     string_to_format (format_to_string .FORMAT_PNG) = .FORMAT_PNG ∧
     string_to_format (format_to_string .FORMAT_WEBP) = .FORMAT_WEBP ∧
     string_to_format (format_to_string .FORMAT_BMP) = .FORMAT_BMP) ∧
    encode_infer_format (path.map to_upper_byte) = encode_infer_format path ∧
    (extAfterLastDot path = none → encode_infer_format path = .FORMAT_JPEG) ∧
    (∀ e, extAfterLastDot path = some e →
      string_to_format (e.map to_lower_byte) = .FORMAT_UNKNOWN →
      encode_infer_format path = .FORMAT_JPEG) := by
  refine ⟨⟨by decide, by decide, by decide, by decide⟩,
    encode_infer_format_map_upper path, ?_, ?_⟩
  · intro h; simp [encode_infer_format, h]
  · intro e he hu; simp [encode_infer_format, he, hu]

/-- Witness for C10 at a dotless path and an unrecognized extension. -/
theorem C10_format_names_witness :
    encode_infer_format [112, 104] = .FORMAT_JPEG ∧
    encode_infer_format [102, 46, 120, 121] = .FORMAT_JPEG :=
  ⟨(C10_format_names [112, 104]).2.2.1 rfl,
   (C10_format_names [102, 46, 120, 121]).2.2.2 [120, 121] rfl (by decide)⟩

end FastResize
